import Mathlib

/-!
Verification development for the `hubot-slack` adapter (src/src/Bot.mjs).

The JavaScript source is shallowly embedded: JS strings are `List Char`,
JS objects are association lists (`alookup` returns the binding that JS
property lookup would see), JS `undefined`/`null` are explicit `JVal`
constructors, and the external collaborators (Slack Web API, the hubot
brain) appear as explicit arguments/oracles.  Every definition mirrors a
specific function of `Bot.mjs`; deviations forced by missing external code
are flagged in the doc comments.
-/

namespace HubotSlack

/-- JS strings are modelled as lists of characters. -/
abbrev Str := List Char

/-- Association-list lookup: the value JS property access `o[k]` sees
(first binding wins; our object constructors keep keys unique). -/
def alookup {α β : Type} [DecidableEq α] (l : List (α × β)) (k : α) : Option β :=
  match l with
  | [] => none
  | p :: rest => if p.1 = k then some p.2 else alookup rest k

/-- Whether an object has a key (JS `k in o`). -/
def hasKey {α β : Type} [DecidableEq α] (l : List (α × β)) (k : α) : Bool :=
  match l with
  | [] => false
  | p :: rest => if p.1 = k then true else hasKey rest k

/-- JS property assignment `o[k] = v`: overwrite the existing binding in
place, otherwise append a new one (matches JS key insertion order). -/
def objAssign {α β : Type} [DecidableEq α] (l : List (α × β)) (k : α) (v : β) :
    List (α × β) :=
  if hasKey l k then l.map (fun p => if p.1 = k then (p.1, v) else p) else l ++ [(k, v)]

/-- JS `delete o[k]`. -/
def eraseKey {α β : Type} [DecidableEq α] (l : List (α × β)) (k : α) : List (α × β) :=
  l.filter (fun p => decide (p.1 ≠ k))

/-- Build a JS object from a list of key/value pairs written in order:
later pairs overwrite earlier ones, as in object literals and spreads. -/
def mkObj {α β : Type} [DecidableEq α] (l : List (α × β)) : List (α × β) :=
  l.foldl (fun acc p => objAssign acc p.1 p.2) []

/-- The value the LAST pair with a given key carries (the value a JS
object built from `l` in order would hold at `k`). -/
def lastLookup {α β : Type} [DecidableEq α] (l : List (α × β)) (k : α) : Option β :=
  match l with
  | [] => none
  | p :: rest =>
    match lastLookup rest k with
    | some v => some v
    | none => if p.1 = k then some p.2 else none

/-- JS truthiness of a possibly-absent string (`undefined`, `null` and
`""` are falsy). -/
def jsTruthyOpt : Option Str → Bool
  | none => false
  | some s => !s.isEmpty

/-- JS `a || b` on possibly-absent strings. -/
def jsOrStr (a b : Option Str) : Option Str :=
  if jsTruthyOpt a then a else b

/-- JS `needle.isPrefixOf`-style check used by `includes`: does `hay`
contain `needle` as a contiguous substring (JS `hay.includes(needle)`)? -/
def jsIncludes (needle : Str) : Str → Bool
  | [] => needle.isEmpty
  | c :: t => needle.isPrefixOf (c :: t) || jsIncludes needle t

/-- JS `hay.replace(needle, repl)` with a string pattern: replace the
first occurrence only. -/
def jsReplaceFirst (needle repl : Str) : Str → Str
  | [] => if needle.isEmpty then repl else []
  | c :: t =>
    if needle.isPrefixOf (c :: t) then repl ++ (c :: t).drop needle.length
    else c :: jsReplaceFirst needle repl t

/-! ## JS numbers and the conversation-cache TTL (Bot.mjs lines 8-11, 173-175) -/

/-- A JS number as far as `parseInt` and `===` are concerned: either a
genuine integer or `NaN`. -/
inductive JSNum where
  | nan : JSNum
  | int (n : Int) : JSNum
deriving DecidableEq

/-- JS strict equality `===` on numbers: `NaN` is not equal to anything,
itself included (IEEE-754 semantics). -/
def jsStrictEqNum : JSNum → JSNum → Bool
  | .nan, _ => false
  | _, .nan => false
  | .int a, .int b => a = b

def isWs (c : Char) : Bool := c = ' ' || c = '\t' || c = '\n' || c = '\r'

def digitVal (c : Char) : Nat := c.toNat - '0'.toNat

def digitsToNat (ds : Str) : Nat :=
  ds.foldl (fun acc c => 10 * acc + digitVal c) 0

/-- JS `parseInt(s, 10)`: skip leading whitespace, take an optional sign
and then the longest prefix of decimal digits; `NaN` when there is no
digit. -/
def parseIntJs (s : Str) : JSNum :=
  let cs := s.dropWhile isWs
  let signed : Bool × Str :=
    match cs with
    | '-' :: r => (true, r)
    | '+' :: r => (false, r)
    | _ => (false, cs)
  let ds := signed.2.takeWhile Char.isDigit
  if ds.isEmpty then .nan
  else .int (if signed.1 then -(digitsToNat ds : Int) else (digitsToNat ds : Int))

/-- `SlackClient.CONVERSATION_CACHE_TTL_MS` (Bot.mjs lines 8-11): the
environment override parsed with `parseInt(-, 10)` when the variable is
truthy, otherwise the 5-minute default. -/
def conversationCacheTTLMs (env : Option Str) : JSNum :=
  if jsTruthyOpt env then parseIntJs (env.getD []) else .int 300000

/-- Module-level TTL validation (Bot.mjs lines 173-175):
`if (SlackClient.CONVERSATION_CACHE_TTL_MS === NaN) throw new Error(...)`.
The thrown error is modelled as `Except.error ()`; its message text
("HUBOT_SLACK_CONVERSATION_CACHE_TTL_MS must be a number.") carries no
further behaviour. -/
def moduleTTLValidation (env : Option Str) : Except Unit JSNum :=
  let ttl := conversationCacheTTLMs env
  if jsStrictEqNum ttl .nan then .error () else .ok ttl

/-! ## SlackClient.send (Bot.mjs lines 73-94) -/

/-- The outbound envelope as `SlackClient.send` reads it: `room`, `id`
and `envelope.message?.thread_ts`. -/
structure Envelope where
  room : Option Str
  id : Option Str
  message_thread_ts : Option Str

/-- The second argument of `SlackClient.send`: a plain string or a
structured message object (own enumerable properties, string-valued). -/
inductive MessageArg where
  | str (s : Str)
  | obj (fields : List (Str × Str))

/-- `typeof message === "string" ? message : message.text`.  A missing
`text` property reads as `undefined` (`none`). -/
def msgText : MessageArg → Option Str
  | .str s => some s
  | .obj fields => alookup fields ("text".toList)

/-- The own enumerable entries contributed by `...message` in the
`messageOptions` object literal.  Spreading a string contributes its
characters under the index keys "0", "1", ... (JS object-spread
semantics); spreading an object contributes its fields. -/
def spreadEntries : MessageArg → List (Str × Option Str)
  | .str s => (s.enum.map (fun p => ((toString p.1).toList, some [p.2])))
  | .obj fields => fields.map (fun p => (p.1, some p.2))

/-- The `messageOptions` literal of `SlackClient.send`:
`{ channel: room, text: ..., thread_ts, ...message }`, with the spread
evaluated last so its keys overwrite the computed defaults.  Values are
`Option Str`, `none` standing for JS `undefined`. -/
def buildMessageOptions (room : Str) (thread_ts : Option Str) (message : MessageArg) :
    List (Str × Option Str) :=
  mkObj ([(("channel".toList), some room),
          (("text".toList), msgText message),
          (("thread_ts".toList), thread_ts)] ++ spreadEntries message)

/-- What a call to `SlackClient.send` did: the payloads handed to
`chat.postMessage`, whether `logger.error` ran, and whether the call
re-raised an error to its caller. -/
structure SendOutcome where
  posts : List (List (Str × Option Str))
  errorLogged : Bool
  raised : Bool
deriving DecidableEq

/-- `SlackClient.send(envelope, message)` (Bot.mjs lines 73-94).
`postOk` is the REST collaborator's verdict on the single
`chat.postMessage` call; a rejection is caught and logged, never
re-raised. -/
def sendModel (envelope : Envelope) (message : MessageArg) (postOk : Bool) : SendOutcome :=
  let room := jsOrStr envelope.room envelope.id
  match room with
  | none => { posts := [], errorLogged := true, raised := false }
  | some r =>
    let payload := buildMessageOptions r envelope.message_thread_ts message
    { posts := [payload], errorLogged := !postOk, raised := false }

/-! ## SlackClient.loadUsers (Bot.mjs lines 95-116) -/

/-- One page of `users.list`: its members and
`response_metadata?.next_cursor` (`none` when the metadata or cursor is
absent; Slack's empty-string cursor is falsy and also ends the loop). -/
structure UsersPage (M : Type) where
  members : List M
  next_cursor : Option Str

/-- Trace of one `loadUsers` run: the cursors passed to `users.list`
(`none` for the initial cursorless request), in request order, and every
invocation of the completion callback (`Except.error` for
`callback(error)`, `Except.ok` for `callback(null, combinedResults)`). -/
structure LoadTrace (ε M : Type) where
  calls : List (Option Str)
  callbacks : List (Except ε (List M))

/-- The `pageLoaded` callback loop of `SlackClient.loadUsers`: on error,
invoke the callback with it and stop; otherwise push the page's members
onto `combinedResults` and either follow a truthy `next_cursor` or
deliver the combined members.  `fuel` bounds the number of page
responses processed (each recursive `users.list` call consumes one);
the request whose response is cut off by exhausted fuel still appears in
`calls`. -/
def loadUsersGo (pages : Option Str → Except ε (UsersPage M)) :
    Nat → Option Str → List M → LoadTrace ε M
  | 0, cursor, _ => { calls := [cursor], callbacks := [] }
  | fuel + 1, cursor, acc =>
    match pages cursor with
    | .error e => { calls := [cursor], callbacks := [.error e] }
    | .ok pg =>
      let acc2 := acc ++ pg.members
      if jsTruthyOpt pg.next_cursor then
        let t := loadUsersGo pages fuel pg.next_cursor acc2
        { calls := cursor :: t.calls, callbacks := t.callbacks }
      else { calls := [cursor], callbacks := [.ok acc2] }

/-- `SlackClient.loadUsers(callback)` (Bot.mjs lines 95-116): start with
the cursorless `users.list` request and an empty `combinedResults`. -/
def loadUsersModel (pages : Option Str → Except ε (UsersPage M)) (fuel : Nat) :
    LoadTrace ε M :=
  loadUsersGo pages fuel none []

/-- Cursor chain written from the claim: the cursors requested in order,
each taken from the previous page's reply, stopping at an error, at a
missing/falsy cursor, or when fuel runs out mid-flight. -/
def pageChainSpec (pages : Option Str → Except ε (UsersPage M)) :
    Nat → Option Str → List (Option Str)
  | 0, cursor => [cursor]
  | fuel + 1, cursor =>
    match pages cursor with
    | .error _ => [cursor]
    | .ok pg =>
      if jsTruthyOpt pg.next_cursor then cursor :: pageChainSpec pages fuel pg.next_cursor
      else [cursor]

/-- Callback deliveries written from the claim: nothing while pages are
still pending, exactly one error on the first failing page (no partial
result), and exactly one combined in-order concatenation of all pages'
members on success. -/
def loadResultSpec (pages : Option Str → Except ε (UsersPage M)) :
    Nat → Option Str → List (Except ε (List M))
  | 0, _ => []
  | fuel + 1, cursor =>
    match pages cursor with
    | .error e => [.error e]
    | .ok pg =>
      if jsTruthyOpt pg.next_cursor then
        (loadResultSpec pages fuel pg.next_cursor).map (fun r => r.map (pg.members ++ ·))
      else [.ok pg.members]

/-! ## JS values and objects -/

/-- A JS value as the user-record and cache logic sees it: `undefined`,
`null`, a string, or a nested object. -/
inductive JVal where
  | vundefined : JVal
  | vnull : JVal
  | vstr (s : Str) : JVal
  | vobj (fields : List (Str × JVal)) : JVal

/-- A JS object: an association list of own enumerable properties. -/
abbrev JObj := List (Str × JVal)

/-- Property read `o.k`: `undefined` when the key is absent. -/
def jsGet (o : JObj) (k : Str) : JVal :=
  (alookup o k).getD .vundefined

/-- JS `v == null` (loose): true exactly for `undefined` and `null`. -/
def jsNullish : JVal → Bool
  | .vundefined => true
  | .vnull => true
  | _ => false

/-- JS strict equality between a value and a string literal
(`v === "lit"`). -/
def jvalEqStr (v : JVal) (s : Str) : Bool :=
  match v with
  | .vstr t => t = s
  | _ => false

/-- The string JS uses when a value becomes a property key
(`String(v)`). -/
def idKeyOf : JVal → Str
  | .vstr s => s
  | .vundefined => "undefined".toList
  | .vnull => "null".toList
  | .vobj _ => "[object Object]".toList

/-! ## SlackClient.updateUserInBrain (Bot.mjs lines 138-162) -/

/-- The hubot brain's user table, keyed by user ID.  The brain is an
external collaborator; per spec section 6 it is a persistent key-value
store of users (get/set by ID).  The merge logic itself lives in
`updateUserInBrain` below, exactly as in the source, which deletes the
old record before storing the freshly merged one. -/
abbrev Brain := List (Str × JObj)

/-- `event_or_user.type === 'user_change' ? event_or_user.user :
event_or_user`; a non-object `user` payload degrades to an empty object
(property reads on it would yield `undefined`). -/
def userOfPayload (event_or_user : JObj) : JObj :=
  if jvalEqStr (jsGet event_or_user ("type".toList)) ("user_change".toList) then
    match jsGet event_or_user ("user".toList) with
    | .vobj o => o
    | _ => []
  else event_or_user

/-- `user.profile != null ? user.profile.email : undefined`.  Property
access on a non-object profile yields `undefined`. -/
def profileEmail (user : JObj) : JVal :=
  match jsGet user ("profile".toList) with
  | .vobj p => jsGet p ("email".toList)
  | _ => .vundefined

/-- The `newUser` object of `updateUserInBrain` just before the
old-record merge: literal keys `id`, `name`, `real_name`, `slack` (the
`for (key in user)` copy of the entire payload), and `email_address`
when `user.profile?.email` is non-nullish. -/
def newUserOf (user : JObj) : JObj :=
  let base : JObj :=
    [(("id".toList), jsGet user ("id".toList)),
     (("name".toList), jsGet user ("name".toList)),
     (("real_name".toList), jsGet user ("real_name".toList)),
     (("slack".toList), .vobj (mkObj user))]
  if !(jsNullish (profileEmail user)) then
    base ++ [(("email_address".toList), profileEmail user)]
  else base

/-- The `for (key in old) if (!(key in newUser)) newUser[key] = value`
loop: append every old binding whose key the new record does not carry. -/
def mergeOldKeys (newUser old : JObj) : JObj :=
  newUser ++ old.filter (fun kv => !(hasKey newUser kv.1))

/-- `SlackClient.updateUserInBrain(event_or_user)` (Bot.mjs lines
138-162): unwrap `user_change` events, build `newUser`, merge the
pre-existing record's extra keys, then `delete` the old entry and store
the result under `user.id` (the brain's `userForId` on a just-deleted
key stores the given record). -/
def updateUserInBrain (brain : Brain) (event_or_user : JObj) : Brain :=
  objAssign
    (eraseKey brain (idKeyOf (jsGet (userOfPayload event_or_user) ("id".toList))))
    (idKeyOf (jsGet (userOfPayload event_or_user) ("id".toList)))
    (match alookup brain (idKeyOf (jsGet (userOfPayload event_or_user) ("id".toList))) with
     | some old => mergeOldKeys (newUserOf (userOfPayload event_or_user)) old
     | none => newUserOf (userOfPayload event_or_user))

/-! ## SlackClient.fetchConversation (Bot.mjs lines 124-137) -/

/-- One entry of `this.channelData`: the conversation object as stored
(nullable at the type level — the code guards reads with `!= null`) and
the `updated` timestamp taken at store time. -/
structure CacheEntry where
  channel : Option JObj
  updated : Int

/-- The conversation cache. -/
abbrev ConvCache := List (Str × CacheEntry)

/-- The cache-hit test of `fetchConversation`: an entry exists, its
`channel` is non-null, and `expiration < entry.updated` where
`expiration = now - CONVERSATION_CACHE_TTL_MS`. -/
def cacheHit (ttl now : Int) (cache : ConvCache) (cid : Str) : Bool :=
  match alookup cache cid with
  | some e => e.channel.isSome && decide (now - ttl < e.updated)
  | none => false

/-- The stored channel for a conversation ID (`undefined`/absent reads
collapse to `none`). -/
def storedChannel (cache : ConvCache) (cid : Str) : Option JObj :=
  match alookup cache cid with
  | some e => e.channel
  | none => none

/-- Everything a `fetchConversation` call did: the value returned or the
error propagated, the cache afterwards, and how many
`conversations.info` REST calls were made. -/
structure FetchOutcome (ε : Type) where
  result : Except ε (Option JObj)
  cache : ConvCache
  restCalls : Nat

/-- The miss path of `fetchConversation`, entered with any stale entry
already deleted: one `conversations.info` call (`web` is its result); a
rejection propagates with nothing cached; a non-null channel is stored
with the current timestamp; a null channel is returned uncached. -/
def fetchMiss (now : Int) (cache : ConvCache) (cid : Str)
    (web : Except ε (Option JObj)) : FetchOutcome ε :=
  match web with
  | .error e => { result := .error e, cache := cache, restCalls := 1 }
  | .ok none => { result := .ok none, cache := cache, restCalls := 1 }
  | .ok (some ch) =>
    { result := .ok (some ch),
      cache := objAssign cache cid { channel := some ch, updated := now },
      restCalls := 1 }

/-- `SlackClient.fetchConversation(conversationId)` (Bot.mjs lines
124-137): return the cached channel when the hit test passes, otherwise
delete any (stale) entry and run the miss path. -/
def fetchConversation (ttl now : Int) (cache : ConvCache) (cid : Str)
    (web : Except ε (Option JObj)) : FetchOutcome ε :=
  if cacheHit ttl now cache cid then
    { result := .ok (storedChannel cache cid), cache := cache, restCalls := 0 }
  else
    fetchMiss now (eraseKey cache cid) cid web

/-! ## SlackBot.eventHandler (Bot.mjs lines 401-537) -/

/-- The adapter's identity (`this.self` from `auth.test`): the bot's
user ID and login name. -/
structure SelfInfo where
  user_id : Str
  user : Str

/-- The `item` of a reaction event. -/
structure ReactionItem where
  itype : Str
  channel : Option Str

/-- The inbound Slack event (`message.body.event`, which the socket
wrapper also exposes as `message.event` — the two alias one object).
Only the properties `eventHandler` reads are modelled. -/
structure InboundEvent where
  etype : Str
  user : Option Str
  channel : Option Str
  channel_type : Option Str
  text : Option Str
  message_text : Option Str
  ts : Option Str
  event_ts : Option Str
  item : Option ReactionItem
  item_user : Option JObj
  reaction : Option Str
  file_id : Option Str

/-- The socket-mode envelope handed to `eventHandler`: the event object
and the envelope's own `ts` field (`message.ts`, distinct from
`message.event.ts`).  The `ack` callback is a transport side effect with
no bearing on the modelled behaviour. -/
structure SocketMessage where
  event : InboundEvent
  ts : Option Str

/-- `event.text ?? event.message?.text ?? ''`. -/
def eventText (e : InboundEvent) : Str :=
  match e.text with
  | some t => t
  | none =>
    match e.message_text with
    | some t => t
    | none => []

/-- `SlackBot.addBotIdToMessage(event)` (Bot.mjs lines 414-420): in a
direct-message conversation, prefix the bot's mention token unless the
text already contains the bot's user ID. -/
def addBotIdToMessage (selfId : Str) (e : InboundEvent) : Str :=
  let text := eventText e
  if !text.isEmpty && (e.channel_type = some ("im".toList) : Bool) && !jsIncludes selfId text then
    ("<@".toList ++ selfId ++ "> ".toList) ++ text
  else text

/-- `SlackBot.replaceBotIdWithName(event)` (Bot.mjs lines 401-413): if
the text contains `<@selfId>`, replace its first occurrence with the
configured alias when that is truthy, else with `@` + the bot's name. -/
def replaceBotIdWithName (selfId selfName : Str) (al : Option Str) (e : InboundEvent) : Str :=
  let text := eventText e
  let mention := "<@".toList ++ selfId ++ ">".toList
  if jsIncludes mention text then
    if jsTruthyOpt al then jsReplaceFirst mention (al.getD []) text
    else jsReplaceFirst mention ('@' :: selfName) text
  else text

/-- The two text-preprocessing assignments of `eventHandler` (Bot.mjs
lines 486-487), in source order; each writes its result back into
`message.body.event.text` before the next reads it. -/
def preprocessEvent (selfId selfName : Str) (al : Option Str) (e : InboundEvent) :
    InboundEvent :=
  let e1 := { e with text := some (addBotIdToMessage selfId e) }
  { e1 with text := some (replaceBotIdWithName selfId selfName al e1) }

/-- The context `eventHandler` closes over: the bot's identity, the
configured alias (`robot.alias`), the brain's user table, and the
`users.info` REST collaborator (`none` models a rejected call). -/
structure HandlerCtx where
  self : SelfInfo
  al : Option Str
  brain : Brain
  usersInfo : Str → Option JObj

/-- Resolution of the acting user (Bot.mjs lines 452-460): brain lookup,
`users.info` fetch-on-miss stored via the brain's `userForId`, then the
post-store lookup the code performs. -/
structure Resolution where
  found : Option JObj
  brain : Brain
  webCalls : Nat

def resolveUser (ctx : HandlerCtx) (user : Str) : Resolution :=
  match alookup ctx.brain user with
  | some _ => { found := alookup ctx.brain user, brain := ctx.brain, webCalls := 0 }
  | none =>
    match ctx.usersInfo user with
    | some resp =>
      let b2 := objAssign ctx.brain user resp
      { found := alookup b2 user, brain := b2, webCalls := 1 }
    | none => { found := none, brain := ctx.brain, webCalls := 1 }

/-- The ID property of the resolved acting user (`from?.id`). -/
def userOfMsg (msg : SocketMessage) : Str :=
  msg.event.user.getD []

def fromIdOf (ctx : HandlerCtx) (msg : SocketMessage) : JVal :=
  match (resolveUser ctx (userOfMsg msg)).found with
  | some o => jsGet o ("id".toList)
  | none => .vundefined

/-- `from.room = channel ?? ''; from.name = from?.name ?? null`
(Bot.mjs lines 482-483). -/
def mutateFrom (fromUser : JObj) (channel : Option Str) : JObj :=
  let f1 := objAssign fromUser ("room".toList) (.vstr (channel.getD []))
  objAssign f1 ("name".toList)
    (match jsGet f1 ("name".toList) with
     | .vundefined => .vnull
     | v => v)

/-- The normalized messages handed to `Robot#receive`. -/
inductive HubotMsg where
  | enter (user : JObj) (ts : Option Str) : HubotMsg
  | leave (userId : Str) (ts : Option Str) : HubotMsg
  | reaction (kind : Str) (user : JObj) (reactionName : Option Str) (itemUser : JObj)
      (item : ReactionItem) (ts : Option Str) : HubotMsg
  | fileShared (user : JObj) (fileId : Option Str) (ts : Option Str) : HubotMsg
  | plainText (user : JObj) (text : Str) (channel : Option Str) : HubotMsg

/-- The timestamp property the dispatch branch put on the message
(`msg.ts` for Enter/Leave, the constructor's event timestamp for
reactions and file shares; `SlackTextMessage` carries none here). -/
def HubotMsg.tsOf : HubotMsg → Option Str
  | .enter _ ts => ts
  | .leave _ ts => ts
  | .reaction _ _ _ _ _ ts => ts
  | .fileShared _ _ ts => ts
  | .plainText _ _ _ => none

/-- What one `eventHandler` run did: the messages given to the receive
pipeline, the brain afterwards, the value of `message.body.event.text`
as the dispatch switch saw it (`none` when the handler returned before
the preprocessing assignments), the number of `users.info` calls, and
whether an error was logged (by the handler or by `eventWrapper`
catching a thrown one). -/
structure HandlerOutcome where
  received : List HubotMsg
  brain : Brain
  dispatchText : Option Str
  usersInfoCalls : Nat
  errorLogged : Bool

/-- The `switch (message.event.type)` of `eventHandler` (Bot.mjs lines
492-533).  The default branch's `SlackTextMessage.makeSlackTextMessage`
lives in the repository's `Message.mjs`, which is not part of the given
source; per spec section 4.1 it yields a PlainText message carrying the
resolved user, the preprocessed text and the conversation (its failure
path, dropped-and-logged, is not exercised by any claim).  A reaction
event without an `item` throws a TypeError inside the `try`, which is
caught and logged with nothing received. -/
def dispatchSwitch (msg : SocketMessage) (from2 : JObj)
    (brain : Brain) (calls : Nat) (txt : Str) : HandlerOutcome :=
  if msg.event.etype = "member_joined_channel".toList then
    { received := [.enter from2 msg.event.ts], brain := brain,
      dispatchText := some txt, usersInfoCalls := calls, errorLogged := false }
  else if msg.event.etype = "member_left_channel".toList then
    { received := [.leave (userOfMsg msg) msg.ts], brain := brain,
      dispatchText := some txt, usersInfoCalls := calls, errorLogged := false }
  else if msg.event.etype = "reaction_added".toList ∨
          msg.event.etype = "reaction_removed".toList then
    match msg.event.item with
    | none =>
      { received := [], brain := brain, dispatchText := some txt,
        usersInfoCalls := calls, errorLogged := true }
    | some item =>
      let roomVal : JVal :=
        if item.itype = "message".toList then
          match item.channel with
          | some c => .vstr c
          | none => .vundefined
        else .vstr []
      let from3 := objAssign from2 ("room".toList) roomVal
      let brain2 := objAssign brain (userOfMsg msg) from3
      let itemUser : JObj × Brain :=
        match msg.event.item_user with
        | some iu => (iu, objAssign brain2 (idKeyOf (jsGet iu ("id".toList))) iu)
        | none => ([], brain2)
      { received := [.reaction msg.event.etype from3 msg.event.reaction itemUser.1
                      item msg.event.event_ts],
        brain := itemUser.2, dispatchText := some txt,
        usersInfoCalls := calls, errorLogged := false }
  else if msg.event.etype = "file_shared".toList then
    { received := [.fileShared from2 msg.event.file_id msg.event.event_ts],
      brain := brain, dispatchText := some txt,
      usersInfoCalls := calls, errorLogged := false }
  else
    { received := [.plainText from2 txt msg.event.channel], brain := brain,
      dispatchText := some txt, usersInfoCalls := calls, errorLogged := false }

/-- `SlackBot.eventHandler(message)` (Bot.mjs lines 438-537): guard on a
truthy `message.body.event.user`, resolve the acting user (a rejected
`users.info` throws out to `eventWrapper`, which logs it), return before
anything else if the resolved user's ID is the bot's own, mutate the
user's `room`/`name`, run the two text-preprocessing assignments, and
dispatch on the event type. -/
def eventHandler (ctx : HandlerCtx) (msg : SocketMessage) : HandlerOutcome :=
  if jsTruthyOpt msg.event.user then
    match (resolveUser ctx (userOfMsg msg)).found with
    | none =>
      { received := [], brain := (resolveUser ctx (userOfMsg msg)).brain,
        dispatchText := none,
        usersInfoCalls := (resolveUser ctx (userOfMsg msg)).webCalls,
        errorLogged := true }
    | some from0 =>
      if jvalEqStr (jsGet from0 ("id".toList)) ctx.self.user_id then
        { received := [], brain := (resolveUser ctx (userOfMsg msg)).brain,
          dispatchText := none,
          usersInfoCalls := (resolveUser ctx (userOfMsg msg)).webCalls,
          errorLogged := false }
      else
        let from2 := mutateFrom from0 msg.event.channel
        let brain3 := objAssign (resolveUser ctx (userOfMsg msg)).brain (userOfMsg msg) from2
        let ev2 := preprocessEvent ctx.self.user_id ctx.self.user ctx.al msg.event
        dispatchSwitch { msg with event := ev2 } from2 brain3
          ((resolveUser ctx (userOfMsg msg)).webCalls) (eventText ev2)
  else
    { received := [], brain := ctx.brain, dispatchText := none,
      usersInfoCalls := 0, errorLogged := false }

/-! ## Association-list lemmas -/

theorem alookup_append {α β : Type} [DecidableEq α] (l1 l2 : List (α × β)) (k : α) :
    alookup (l1 ++ l2) k =
      (match alookup l1 k with
       | some v => some v
       | none => alookup l2 k) := by
  induction l1 with
  | nil => simp [alookup]
  | cons p rest ih =>
    by_cases h : p.1 = k <;> simp [alookup, h, ih]

theorem hasKey_eq_isSome {α β : Type} [DecidableEq α] (l : List (α × β)) (k : α) :
    hasKey l k = (alookup l k).isSome := by
  induction l with
  | nil => simp [hasKey, alookup]
  | cons p rest ih =>
    by_cases h : p.1 = k <;> simp [hasKey, alookup, h, ih]

theorem alookup_eq_none_of_hasKey_false {α β : Type} [DecidableEq α]
    (l : List (α × β)) (k : α) (h : hasKey l k = false) : alookup l k = none := by
  rw [hasKey_eq_isSome] at h
  exact Option.not_isSome_iff_eq_none.mp (by simp [h])

theorem alookup_mapUpdate {α β : Type} [DecidableEq α] (l : List (α × β)) (k k' : α) (v : β) :
    alookup (l.map (fun p => if p.1 = k' then (p.1, v) else p)) k =
      if k = k' then (if hasKey l k then some v else none) else alookup l k := by
  induction l with
  | nil => by_cases h : k = k' <;> simp [alookup, hasKey, h]
  | cons p rest ih =>
    by_cases hk : k = k'
    · subst hk
      by_cases hp : p.1 = k <;> simp [alookup, hasKey, hp, ih]
    · have hk' : ¬ (k' = k) := fun h2 => hk h2.symm
      by_cases hp : p.1 = k'
      · have hpk : ¬ (p.1 = k) := by
          intro h2; exact hk (h2 ▸ hp)
        simp [alookup, hp, hpk, ih, hk, hk']
      · by_cases hpk : p.1 = k <;> simp [alookup, hp, hpk, ih, hk, hk']

theorem alookup_objAssign {α β : Type} [DecidableEq α] (l : List (α × β)) (k k' : α) (v : β) :
    alookup (objAssign l k' v) k = if k = k' then some v else alookup l k := by
  unfold objAssign
  by_cases h : hasKey l k'
  · rw [if_pos h, alookup_mapUpdate]
    by_cases hk : k = k'
    · subst hk; simp [h]
    · simp [hk]
  · rw [if_neg h, alookup_append]
    by_cases hk : k = k'
    · subst hk
      rw [alookup_eq_none_of_hasKey_false l k (by simpa using h)]
      simp [alookup]
    · have hk' : ¬ (k' = k) := fun h2 => hk h2.symm
      cases hl : alookup l k <;> simp [alookup, hk, hk', hl]

theorem mem_objAssign {α β : Type} [DecidableEq α] {l : List (α × β)} {k : α} {v : β}
    {p : α × β} (h : p ∈ objAssign l k v) : p ∈ l ∨ p.2 = v := by
  unfold objAssign at h
  by_cases hl : hasKey l k
  · rw [if_pos hl] at h
    obtain ⟨q, hq, hqp⟩ := List.mem_map.mp h
    by_cases hq1 : q.1 = k
    · rw [if_pos hq1] at hqp
      right; rw [← hqp]
    · rw [if_neg hq1] at hqp
      left; exact hqp ▸ hq
  · rw [if_neg hl] at h
    rcases List.mem_append.mp h with h1 | h2
    · exact Or.inl h1
    · right
      have : p = (k, v) := by simpa using h2
      rw [this]

theorem alookup_eraseKey {α β : Type} [DecidableEq α] (l : List (α × β)) (k k' : α) :
    alookup (eraseKey l k') k = if k = k' then none else alookup l k := by
  induction l with
  | nil => simp [eraseKey, alookup]
  | cons p rest ih =>
    by_cases hp : p.1 = k'
    · have hdrop : eraseKey (p :: rest) k' = eraseKey rest k' := by
        simp [eraseKey, List.filter, hp]
      rw [hdrop, ih]
      by_cases hk : k = k'
      · simp [hk]
      · have hpk : ¬ (p.1 = k) := fun h2 => hk (by rw [← h2, hp])
        simp [alookup, hpk, hk]
    · have hkeep : eraseKey (p :: rest) k' = p :: eraseKey rest k' := by
        simp [eraseKey, List.filter, hp]
      rw [hkeep]
      by_cases hpk : p.1 = k
      · have hk : ¬ (k = k') := fun h2 => hp (by rw [hpk, h2])
        simp [alookup, hpk, hk]
      · simp [alookup, hpk, ih]

theorem mem_eraseKey {α β : Type} [DecidableEq α] {l : List (α × β)} {k : α}
    {p : α × β} (h : p ∈ eraseKey l k) : p ∈ l :=
  (List.mem_filter.mp h).1

theorem alookup_filter_pred {α β : Type} [DecidableEq α] (pr : α → Bool)
    (l : List (α × β)) (k : α) (hk : pr k = false) :
    alookup (l.filter (fun kv => !(pr kv.1))) k = alookup l k := by
  induction l with
  | nil => simp [alookup]
  | cons p rest ih =>
    by_cases hp : p.1 = k
    · have hpr : pr p.1 = false := by rw [hp]; exact hk
      have hkeep : List.filter (fun kv => !(pr kv.1)) (p :: rest) =
          p :: List.filter (fun kv => !(pr kv.1)) rest := by
        simp [List.filter, hpr]
      rw [hkeep]
      simp [alookup, hp]
    · cases hpr : pr p.1
      · have hkeep : List.filter (fun kv => !(pr kv.1)) (p :: rest) =
            p :: List.filter (fun kv => !(pr kv.1)) rest := by
          simp [List.filter, hpr]
        rw [hkeep]
        simp [alookup, hp, ih]
      · have hdrop : List.filter (fun kv => !(pr kv.1)) (p :: rest) =
            List.filter (fun kv => !(pr kv.1)) rest := by
          simp [List.filter, hpr]
        rw [hdrop, ih]
        simp [alookup, hp]

theorem lastLookup_step {α β : Type} [DecidableEq α] (l : List (α × β)) (k : α)
    (acc : Option β) :
    l.foldl (fun a p => if p.1 = k then some p.2 else a) acc =
      (match lastLookup l k with
       | some v => some v
       | none => acc) := by
  induction l generalizing acc with
  | nil => simp [lastLookup]
  | cons p rest ih =>
    simp only [lastLookup, List.foldl]
    rw [ih]
    cases h : lastLookup rest k <;> by_cases hp : p.1 = k <;> simp [hp, h]

theorem lastLookup_append {α β : Type} [DecidableEq α] (l1 l2 : List (α × β)) (k : α) :
    lastLookup (l1 ++ l2) k =
      (match lastLookup l2 k with
       | some v => some v
       | none => lastLookup l1 k) := by
  induction l1 with
  | nil =>
    simp only [List.nil_append]
    cases h : lastLookup l2 k <;> simp [lastLookup, h]
  | cons p rest ih =>
    show (match lastLookup (rest ++ l2) k with
          | some v => some v
          | none => if p.1 = k then some p.2 else none) = _
    rw [ih]
    cases h : lastLookup l2 k <;> cases h2 : lastLookup rest k <;>
      simp [lastLookup, h, h2]

theorem alookup_mkObj {α β : Type} [DecidableEq α] (l : List (α × β)) (k : α) :
    alookup (mkObj l) k = lastLookup l k := by
  have main : ∀ (l : List (α × β)) (b : List (α × β)),
      alookup (l.foldl (fun acc p => objAssign acc p.1 p.2) b) k =
        l.foldl (fun a p => if p.1 = k then some p.2 else a) (alookup b k) := by
    intro l
    induction l with
    | nil => intro b; rfl
    | cons p rest ih =>
      intro b
      simp only [List.foldl]
      rw [ih, alookup_objAssign]
      by_cases hp : p.1 = k
      · simp [hp]
      · have hkp : ¬ (k = p.1) := fun h => hp h.symm
        simp [hp, hkp]
  rw [mkObj, main, lastLookup_step]
  simp only [alookup]
  cases lastLookup l k <;> rfl

theorem lastLookup_map_value {α β γ : Type} [DecidableEq α] (l : List (α × β))
    (g : β → γ) (k : α) :
    lastLookup (l.map (fun p => (p.1, g p.2))) k = (lastLookup l k).map g := by
  induction l with
  | nil => rfl
  | cons p rest ih =>
    simp only [List.map, lastLookup, ih]
    cases h : lastLookup rest k <;> by_cases hp : p.1 = k <;> simp [hp, h]

/-! ## Substring lemmas for the mention-rewriting functions -/

theorem isPrefixOf_append_self (l r : Str) : l.isPrefixOf (l ++ r) = true := by
  induction l with
  | nil => simp [List.isPrefixOf]
  | cons c t ih => simp [List.isPrefixOf, ih]

theorem jsIncludes_nil_left (s : Str) : jsIncludes [] s = true := by
  cases s <;> simp [jsIncludes, List.isPrefixOf]

theorem jsIncludes_append_self (l r : Str) : jsIncludes l (l ++ r) = true := by
  cases l with
  | nil => simpa using jsIncludes_nil_left r
  | cons c t =>
    show jsIncludes (c :: t) (c :: (t ++ r)) = true
    rw [jsIncludes]
    have := isPrefixOf_append_self (c :: t) r
    simp only [List.cons_append] at this
    simp [this]

theorem jsReplaceFirst_append_self (l repl r : Str) :
    jsReplaceFirst l repl (l ++ r) = repl ++ r := by
  cases l with
  | nil =>
    cases r with
    | nil => simp [jsReplaceFirst]
    | cons c t => simp [jsReplaceFirst, List.isPrefixOf]
  | cons c t =>
    show jsReplaceFirst (c :: t) repl (c :: (t ++ r)) = repl ++ r
    rw [jsReplaceFirst]
    have hp := isPrefixOf_append_self (c :: t) r
    simp only [List.cons_append] at hp
    rw [if_pos hp]
    have hd : (c :: (t ++ r)).drop (c :: t).length = r := List.drop_left (c :: t) r
    rw [hd]

/-! ## C1 — TTL validation (code bug: the check can never fire) -/

/-- C1: the claim says an unparseable `HUBOT_SLACK_CONVERSATION_CACHE_TTL_MS`
makes module initialization throw a fatal startup error.  The source's
check is `if (SlackClient.CONVERSATION_CACHE_TTL_MS === NaN)`, and
`NaN === NaN` is false in JS, so the guard never fires: with the
unparseable value "abc" initialization succeeds and the TTL is `NaN`
(first conjunct), the default applies when the variable is absent
(second conjunct), and in fact no environment value whatsoever is
rejected (third conjunct) — the `throw` statement is unreachable, which
contradicts its own error message ("must be a number. It could not be
parsed."). -/
theorem ttl_validation_never_fires :
    moduleTTLValidation (some ("abc".toList)) = .ok JSNum.nan ∧
    moduleTTLValidation none = .ok (JSNum.int 300000) ∧
    ∀ env, moduleTTLValidation env = .ok (conversationCacheTTLMs env) := by
  refine ⟨rfl, rfl, ?_⟩
  intro env
  unfold moduleTTLValidation
  cases h : conversationCacheTTLMs env <;> simp [jsStrictEqNum, h]

/-! ## C9 — send with an unresolvable room -/

/-- C9: when the envelope carries neither `room` nor `id`,
`SlackClient.send` makes zero REST calls, logs an error, and returns
without raising to the caller. -/
theorem send_without_room_is_silent (envelope : Envelope) (message : MessageArg)
    (postOk : Bool) (hroom : envelope.room = none) (hid : envelope.id = none) :
    sendModel envelope message postOk =
      { posts := [], errorLogged := true, raised := false } := by
  unfold sendModel
  simp [jsOrStr, jsTruthyOpt, hroom, hid]

theorem send_without_room_is_silent_witness :
    sendModel { room := none, id := none, message_thread_ts := none }
        (MessageArg.str ("hi".toList)) true =
      { posts := [], errorLogged := true, raised := false } :=
  send_without_room_is_silent _ _ _ rfl rfl

/-! ## C2 — structured payload fields versus computed defaults -/

/-- C2 counterexample: the claim says the `channel` field of the REST
payload always equals the room resolved from the envelope, regardless of
any `channel` field on the message object.  In the source the spread
`...message` comes LAST in the `messageOptions` literal, so a `channel`
carried on the message object overwrites the computed one: with envelope
room "C1" and a message object carrying channel "C999", the posted
payload's channel is "C999", not "C1". -/
theorem send_channel_override_cex :
    ((sendModel { room := some ("C1".toList), id := none, message_thread_ts := none }
        (MessageArg.obj [(("channel".toList), ("C999".toList))]) true).posts.map
        (fun p => alookup p ("channel".toList)) = [some (some ("C999".toList))]) ∧
    ¬ (some (some ("C999".toList)) = some (some ("C1".toList))) := by
  constructor
  · rfl
  · decide

/-- C2 (amended): fields carried on the message object override ALL the
computed defaults — `text`, `thread_ts` AND `channel` alike (the spread
is evaluated last); the payload's `channel` equals the room resolved
from the envelope only when the message object carries no `channel`
field, and likewise `text`/`thread_ts` keep their computed defaults only
when the message object does not carry them. -/
theorem send_payload_merge (envelope : Envelope) (fields : List (Str × Str))
    (postOk : Bool) (room : Str)
    (hroom : jsOrStr envelope.room envelope.id = some room) :
    ((sendModel envelope (MessageArg.obj fields) postOk).posts =
      [buildMessageOptions room envelope.message_thread_ts (MessageArg.obj fields)]) ∧
    (∀ k v, lastLookup fields k = some v →
      alookup (buildMessageOptions room envelope.message_thread_ts
        (MessageArg.obj fields)) k = some (some v)) ∧
    (lastLookup fields ("channel".toList) = none →
      alookup (buildMessageOptions room envelope.message_thread_ts
        (MessageArg.obj fields)) ("channel".toList) = some (some room)) ∧
    (lastLookup fields ("text".toList) = none →
      alookup (buildMessageOptions room envelope.message_thread_ts
        (MessageArg.obj fields)) ("text".toList) =
        some (msgText (MessageArg.obj fields))) ∧
    (lastLookup fields ("thread_ts".toList) = none →
      alookup (buildMessageOptions room envelope.message_thread_ts
        (MessageArg.obj fields)) ("thread_ts".toList) =
        some envelope.message_thread_ts) := by
  have hpayload : ∀ k, alookup (buildMessageOptions room envelope.message_thread_ts
      (MessageArg.obj fields)) k =
      (match (lastLookup fields k).map some with
       | some v => some v
       | none => lastLookup [(("channel".toList), some room),
                             (("text".toList), msgText (MessageArg.obj fields)),
                             (("thread_ts".toList), envelope.message_thread_ts)] k) := by
    intro k
    rw [buildMessageOptions, alookup_mkObj, lastLookup_append]
    have hspread : lastLookup (spreadEntries (MessageArg.obj fields)) k =
        (lastLookup fields k).map some := by
      show lastLookup (fields.map (fun p => (p.1, some p.2))) k = _
      exact lastLookup_map_value fields some k
    rw [hspread]
    cases lastLookup fields k <;> rfl
  refine ⟨?_, ?_, ?_, ?_, ?_⟩
  · unfold sendModel
    rw [hroom]
  · intro k v hv
    rw [hpayload, hv]
    rfl
  · intro hnone
    rw [hpayload, hnone]
    rfl
  · intro hnone
    rw [hpayload, hnone]
    rfl
  · intro hnone
    rw [hpayload, hnone]
    rfl

theorem send_payload_merge_witness :
    alookup (buildMessageOptions ("C1".toList) none
        (MessageArg.obj [(("color".toList), ("red".toList))])) ("channel".toList) =
      some (some ("C1".toList)) :=
  (send_payload_merge { room := some ("C1".toList), id := none, message_thread_ts := none }
    [(("color".toList), ("red".toList))] true ("C1".toList) rfl).2.2.1 rfl

/-! ## C5 / C10 — the conversation cache -/

theorem fetchConversation_of_hit {ε : Type} (ttl now : Int) (cache : ConvCache)
    (cid : Str) (web : Except ε (Option JObj)) (h : cacheHit ttl now cache cid = true) :
    fetchConversation ttl now cache cid web =
      { result := .ok (storedChannel cache cid), cache := cache, restCalls := 0 } := by
  unfold fetchConversation
  rw [h]
  rfl

theorem fetchConversation_of_miss {ε : Type} (ttl now : Int) (cache : ConvCache)
    (cid : Str) (web : Except ε (Option JObj)) (h : cacheHit ttl now cache cid = false) :
    fetchConversation ttl now cache cid web = fetchMiss now (eraseKey cache cid) cid web := by
  unfold fetchConversation
  rw [h]
  rfl

theorem restCalls_of_miss {ε : Type} (ttl now : Int) (cache : ConvCache)
    (cid : Str) (web : Except ε (Option JObj)) (h : cacheHit ttl now cache cid = false) :
    (fetchConversation ttl now cache cid web).restCalls = 1 := by
  rw [fetchConversation_of_miss ttl now cache cid web h]
  cases web with
  | error e => rfl
  | ok ch =>
    cases ch with
    | none => rfl
    | some c => rfl

/-- C5 counterexample: the claim says a fetchConversation call with no
valid entry "performs exactly one REST conversation lookup, stores the
result with the current timestamp, and returns it" — unconditionally for
any successful lookup.  On a successful lookup whose `channel` is null
(the case Bot.mjs line 130 explicitly guards), the null result is
returned but nothing is stored: after the call the cache has no entry
for the conversation, contradicting the unconditional "stores the
result". -/
theorem fetchConversation_null_not_stored_cex :
    ((fetchConversation (ε := Unit) 300000 1000 [] ("C1".toList) (.ok none)).restCalls = 1) ∧
    ((fetchConversation (ε := Unit) 300000 1000 [] ("C1".toList) (.ok none)).result = .ok none) ∧
    (alookup (fetchConversation (ε := Unit) 300000 1000 [] ("C1".toList)
        (.ok none)).cache ("C1".toList) = none) :=
  ⟨rfl, rfl, rfl⟩

/-- C5 (amended): a fetchConversation call while a stored entry passes
the hit test (non-null channel and `now - storedTimestamp < TTL`)
returns the stored metadata with zero REST calls and an unchanged cache;
a call when the hit test fails first removes any stale entry, performs
exactly one REST lookup, and then: a non-null fetched conversation is
stored with the current timestamp and returned; a null fetched
conversation is returned UNCACHED; a failed lookup propagates the
failure to the caller with nothing cached (only the stale entry's
removal persists). -/
theorem fetchConversation_ttl (ttl now : Int) (cache : ConvCache) (cid : Str)
    (web : Except Unit (Option JObj)) :
    (cacheHit ttl now cache cid = true →
      fetchConversation ttl now cache cid web =
        { result := .ok (storedChannel cache cid), cache := cache, restCalls := 0 }) ∧
    (cacheHit ttl now cache cid = false →
      ((fetchConversation ttl now cache cid web).restCalls = 1) ∧
      (∀ e, web = .error e →
        fetchConversation ttl now cache cid web =
          { result := .error e, cache := eraseKey cache cid, restCalls := 1 }) ∧
      (∀ ch, web = .ok (some ch) →
        fetchConversation ttl now cache cid web =
          { result := .ok (some ch),
            cache := objAssign (eraseKey cache cid) cid { channel := some ch, updated := now },
            restCalls := 1 }) ∧
      (web = .ok none →
        fetchConversation ttl now cache cid web =
          { result := .ok none, cache := eraseKey cache cid, restCalls := 1 })) := by
  constructor
  · intro h
    exact fetchConversation_of_hit ttl now cache cid web h
  · intro h
    refine ⟨restCalls_of_miss ttl now cache cid web h, ?_, ?_, ?_⟩
    · intro e he
      rw [fetchConversation_of_miss ttl now cache cid web h, he]
      rfl
    · intro ch hch
      rw [fetchConversation_of_miss ttl now cache cid web h, hch]
      rfl
    · intro hnone
      rw [fetchConversation_of_miss ttl now cache cid web h, hnone]
      rfl

theorem fetchConversation_ttl_witness :
    fetchConversation (ε := Unit) 300000 1000 [] ("C1".toList) (.ok (some [])) =
      { result := .ok (some []),
        cache := objAssign (eraseKey [] ("C1".toList)) ("C1".toList)
          { channel := some [], updated := 1000 },
        restCalls := 1 } :=
  ((fetchConversation_ttl 300000 1000 [] ("C1".toList) (.ok (some []))).2
    (by decide)).2.2.1 [] rfl

/-- C10: the conversation cache's implicit invariant.  Every entry of a
cache whose entries all carry a non-null channel still does so after any
`fetchConversation` call (first conjunct); a store performed on a miss
with a non-null fetched channel leaves exactly the entry
`{channel, updated := now}` under the conversation ID (second conjunct);
and on a miss whose response carries a null channel, the null is
returned to the caller, the cache afterwards has no entry for that ID,
and a subsequent `fetchConversation` for the same ID performs one fresh
REST call (third conjunct). -/
theorem fetchConversation_nonnull_invariant (ttl now : Int) (cache : ConvCache)
    (cid : Str) (web : Except Unit (Option JObj))
    (hinv : ∀ p ∈ cache, p.2.channel.isSome = true) :
    (∀ p ∈ (fetchConversation ttl now cache cid web).cache, p.2.channel.isSome = true) ∧
    (∀ ch, web = .ok (some ch) → cacheHit ttl now cache cid = false →
      alookup (fetchConversation ttl now cache cid web).cache cid =
        some { channel := some ch, updated := now }) ∧
    (web = .ok none → cacheHit ttl now cache cid = false →
      ((fetchConversation ttl now cache cid web).result = .ok none) ∧
      (alookup (fetchConversation ttl now cache cid web).cache cid = none) ∧
      (∀ (ttl2 now2 : Int) (web2 : Except Unit (Option JObj)),
        (fetchConversation ttl2 now2 (fetchConversation ttl now cache cid web).cache
          cid web2).restCalls = 1)) := by
  refine ⟨?_, ?_, ?_⟩
  · intro p hp
    by_cases h : cacheHit ttl now cache cid
    · rw [fetchConversation_of_hit ttl now cache cid web h] at hp
      exact hinv p hp
    · rw [fetchConversation_of_miss ttl now cache cid web
        (by simpa using h)] at hp
      cases web with
      | error e => exact hinv p (mem_eraseKey hp)
      | ok ch =>
        cases ch with
        | none => exact hinv p (mem_eraseKey hp)
        | some c =>
          rcases mem_objAssign hp with hmem | hval
          · exact hinv p (mem_eraseKey hmem)
          · rw [hval]
            rfl
  · intro ch hch hmiss
    rw [fetchConversation_of_miss ttl now cache cid web hmiss, hch]
    show alookup (objAssign (eraseKey cache cid) cid _) cid = _
    rw [alookup_objAssign]
    simp
  · intro hnone hmiss
    rw [fetchConversation_of_miss ttl now cache cid web hmiss, hnone]
    refine ⟨rfl, ?_, ?_⟩
    · show alookup (eraseKey cache cid) cid = none
      rw [alookup_eraseKey]
      simp
    · intro ttl2 now2 web2
      apply restCalls_of_miss
      show cacheHit ttl2 now2 (eraseKey cache cid) cid = false
      unfold cacheHit
      rw [alookup_eraseKey]
      simp

theorem fetchConversation_nonnull_invariant_witness :
    alookup (fetchConversation (ε := Unit) 300000 1000 [] ("C2".toList)
        (.ok (some []))).cache ("C2".toList) =
      some { channel := some [], updated := 1000 } :=
  (fetchConversation_nonnull_invariant 300000 1000 [] ("C2".toList) (.ok (some []))
    (by simp)).2.1 [] rfl (by decide)

/-! ## C8 — paginated user loading -/

theorem loadUsersGo_spec {ε M : Type} (pages : Option Str → Except ε (UsersPage M))
    (fuel : Nat) (cursor : Option Str) (acc : List M) :
    loadUsersGo pages fuel cursor acc =
      { calls := pageChainSpec pages fuel cursor,
        callbacks := (loadResultSpec pages fuel cursor).map
          (fun r => r.map (fun l => acc ++ l)) } := by
  induction fuel generalizing cursor acc with
  | zero => simp [loadUsersGo, pageChainSpec, loadResultSpec]
  | succ n ih =>
    simp only [loadUsersGo, pageChainSpec, loadResultSpec]
    cases hp : pages cursor with
    | error e => simp [Except.map]
    | ok pg =>
      cases ht : jsTruthyOpt pg.next_cursor with
      | false => simp [ht, Except.map]
      | true =>
        simp only [ht, if_true, List.map_map, LoadTrace.mk.injEq, eq_self_iff_true,
          if_pos, Bool.true_eq]
        rw [ih]
        simp only [List.map_map, LoadTrace.mk.injEq]
        refine ⟨by simp, ?_⟩
        apply List.map_congr_left
        intro r _
        cases r with
        | error e => rfl
        | ok l =>
          show Except.ok ((acc ++ pg.members) ++ l) = Except.ok (acc ++ (pg.members ++ l))
          rw [List.append_assoc]

theorem loadResultSpec_length {ε M : Type} (pages : Option Str → Except ε (UsersPage M))
    (fuel : Nat) (cursor : Option Str) :
    (loadResultSpec pages fuel cursor).length ≤ 1 := by
  induction fuel generalizing cursor with
  | zero => simp [loadResultSpec]
  | succ n ih =>
    simp only [loadResultSpec]
    cases hp : pages cursor with
    | error e => simp
    | ok pg =>
      cases ht : jsTruthyOpt pg.next_cursor with
      | false => simp [ht]
      | true => simpa [ht] using ih pg.next_cursor

/-- C8: `loadUsers` follows the cursor chain — each `users.list` request
after the first carries exactly the cursor returned by the previous
page, stopping when no (truthy) cursor remains or a page fails (first
conjunct equates the requests made with the claim-side cursor chain);
the completion callback is invoked with the in-order concatenation of
all pages' members on success and with the failing page's error on
failure, with no partial result and no further requests after a failure
(second conjunct equates the callback invocations with the claim-side
result: a singleton error or a singleton combined list); and the
callback is never invoked more than once (third conjunct). -/
theorem loadUsers_pagination {ε M : Type} (pages : Option Str → Except ε (UsersPage M))
    (fuel : Nat) :
    ((loadUsersModel pages fuel).calls = pageChainSpec pages fuel none) ∧
    ((loadUsersModel pages fuel).callbacks = loadResultSpec pages fuel none) ∧
    ((loadUsersModel pages fuel).callbacks.length ≤ 1) := by
  have h := loadUsersGo_spec pages fuel none []
  have hid : (loadResultSpec pages fuel none).map
      (fun r => r.map (fun l => ([] : List M) ++ l)) = loadResultSpec pages fuel none := by
    apply List.map_congr_left ?_ |>.trans (List.map_id _)
    intro r _
    cases r with
    | error e => rfl
    | ok l => simp [Except.map]
  refine ⟨?_, ?_, ?_⟩
  · rw [loadUsersModel, h]
  · rw [loadUsersModel, h]
    exact hid
  · rw [loadUsersModel, h]
    show ((loadResultSpec pages fuel none).map _).length ≤ 1
    rw [List.length_map]
    exact loadResultSpec_length pages fuel none

/-! ## C4 — merging user records in the brain -/

theorem alookup_newUser_id (user : JObj) :
    alookup (newUserOf user) ("id".toList) = some (jsGet user ("id".toList)) := by
  unfold newUserOf
  cases h : jsNullish (profileEmail user) <;> simp [h] <;> rfl

theorem alookup_newUser_name (user : JObj) :
    alookup (newUserOf user) ("name".toList) = some (jsGet user ("name".toList)) := by
  unfold newUserOf
  cases h : jsNullish (profileEmail user) <;> simp [h] <;> rfl

theorem alookup_newUser_real_name (user : JObj) :
    alookup (newUserOf user) ("real_name".toList) = some (jsGet user ("real_name".toList)) := by
  unfold newUserOf
  cases h : jsNullish (profileEmail user) <;> simp [h] <;> rfl

theorem alookup_newUser_slack (user : JObj) :
    alookup (newUserOf user) ("slack".toList) = some (.vobj (mkObj user)) := by
  unfold newUserOf
  cases h : jsNullish (profileEmail user) <;> simp [h] <;> rfl

theorem alookup_newUser_email (user : JObj) (h : jsNullish (profileEmail user) = false) :
    alookup (newUserOf user) ("email_address".toList) = some (profileEmail user) := by
  unfold newUserOf
  simp [h]
  rfl

theorem alookup_mergeOldKeys_left (nu old : JObj) (k : Str) (v : JVal)
    (h : alookup nu k = some v) : alookup (mergeOldKeys nu old) k = some v := by
  unfold mergeOldKeys
  rw [alookup_append, h]

theorem alookup_mergeOldKeys_right (nu old : JObj) (k : Str)
    (h : hasKey nu k = false) : alookup (mergeOldKeys nu old) k = alookup old k := by
  unfold mergeOldKeys
  rw [alookup_append, alookup_eq_none_of_hasKey_false nu k h,
    alookup_filter_pred (fun k2 => hasKey nu k2) old k h]

/-- C4: when `updateUserInBrain` sees a payload for a user already
stored, the record it stores is `mergeOldKeys (newUserOf user) old`
(first conjunct), whose `slack` field is the entire fresh platform field
map (second), whose top-level `id`, `name` and `real_name` come from the
new payload (third to fifth), whose `email_address` comes from the new
payload whenever the payload carries a profile email (sixth), and which
preserves every pre-existing key of the old stored record that is not
among the newly built keys (seventh). -/
theorem updateUserInBrain_merge (brain : Brain) (eu : JObj) (old : JObj)
    (hold : alookup brain (idKeyOf (jsGet (userOfPayload eu) ("id".toList))) = some old) :
    (alookup (updateUserInBrain brain eu)
        (idKeyOf (jsGet (userOfPayload eu) ("id".toList))) =
      some (mergeOldKeys (newUserOf (userOfPayload eu)) old)) ∧
    (jsGet (mergeOldKeys (newUserOf (userOfPayload eu)) old) ("slack".toList) =
      .vobj (mkObj (userOfPayload eu))) ∧
    (jsGet (mergeOldKeys (newUserOf (userOfPayload eu)) old) ("id".toList) =
      jsGet (userOfPayload eu) ("id".toList)) ∧
    (jsGet (mergeOldKeys (newUserOf (userOfPayload eu)) old) ("name".toList) =
      jsGet (userOfPayload eu) ("name".toList)) ∧
    (jsGet (mergeOldKeys (newUserOf (userOfPayload eu)) old) ("real_name".toList) =
      jsGet (userOfPayload eu) ("real_name".toList)) ∧
    (jsNullish (profileEmail (userOfPayload eu)) = false →
      jsGet (mergeOldKeys (newUserOf (userOfPayload eu)) old) ("email_address".toList) =
        profileEmail (userOfPayload eu)) ∧
    (∀ k, hasKey (newUserOf (userOfPayload eu)) k = false →
      jsGet (mergeOldKeys (newUserOf (userOfPayload eu)) old) k = jsGet old k) := by
  refine ⟨?_, ?_, ?_, ?_, ?_, ?_, ?_⟩
  · unfold updateUserInBrain
    rw [alookup_objAssign, hold]
    simp
  · unfold jsGet
    rw [alookup_mergeOldKeys_left _ _ _ _ (alookup_newUser_slack (userOfPayload eu))]
    rfl
  · unfold jsGet
    rw [alookup_mergeOldKeys_left _ _ _ _ (alookup_newUser_id (userOfPayload eu))]
    rfl
  · unfold jsGet
    rw [alookup_mergeOldKeys_left _ _ _ _ (alookup_newUser_name (userOfPayload eu))]
    rfl
  · unfold jsGet
    rw [alookup_mergeOldKeys_left _ _ _ _ (alookup_newUser_real_name (userOfPayload eu))]
    rfl
  · intro hmail
    unfold jsGet
    rw [alookup_mergeOldKeys_left _ _ _ _ (alookup_newUser_email (userOfPayload eu) hmail)]
    rfl
  · intro k hk
    unfold jsGet
    rw [alookup_mergeOldKeys_right _ _ _ hk]

theorem updateUserInBrain_merge_witness :
    jsGet (mergeOldKeys
        (newUserOf (userOfPayload [(("id".toList), JVal.vstr ("U1".toList)),
          (("name".toList), JVal.vstr ("alice".toList))]))
        [(("id".toList), JVal.vstr ("U1".toList)),
         (("favorite".toList), JVal.vstr ("tea".toList))]) ("favorite".toList) =
      jsGet [(("id".toList), JVal.vstr ("U1".toList)),
             (("favorite".toList), JVal.vstr ("tea".toList))] ("favorite".toList) :=
  (updateUserInBrain_merge
    [(("U1".toList),
      [(("id".toList), JVal.vstr ("U1".toList)),
       (("favorite".toList), JVal.vstr ("tea".toList))])]
    [(("id".toList), JVal.vstr ("U1".toList)),
     (("name".toList), JVal.vstr ("alice".toList))]
    [(("id".toList), JVal.vstr ("U1".toList)),
     (("favorite".toList), JVal.vstr ("tea".toList))]
    rfl).2.2.2.2.2.2 ("favorite".toList) (by decide)

/-! ## C3 / C6 / C7 — the inbound event handler -/

@[simp]
theorem preprocess_etype (a b : Str) (c : Option Str) (e : InboundEvent) :
    (preprocessEvent a b c e).etype = e.etype := rfl

@[simp]
theorem preprocess_user (a b : Str) (c : Option Str) (e : InboundEvent) :
    (preprocessEvent a b c e).user = e.user := rfl

@[simp]
theorem preprocess_ts (a b : Str) (c : Option Str) (e : InboundEvent) :
    (preprocessEvent a b c e).ts = e.ts := rfl

@[simp]
theorem preprocess_channel (a b : Str) (c : Option Str) (e : InboundEvent) :
    (preprocessEvent a b c e).channel = e.channel := rfl

theorem dispatchSwitch_text (msg : SocketMessage) (from2 : JObj) (brain : Brain)
    (calls : Nat) (txt : Str) :
    (dispatchSwitch msg from2 brain calls txt).dispatchText = some txt := by
  unfold dispatchSwitch
  split
  · rfl
  · split
    · rfl
    · split
      · split
        · rfl
        · rfl
      · split
        · rfl
        · rfl

theorem eventHandler_reaches_dispatch (ctx : HandlerCtx) (msg : SocketMessage) (o : JObj)
    (hu : jsTruthyOpt msg.event.user = true)
    (hfound : (resolveUser ctx (userOfMsg msg)).found = some o)
    (hnotself : jvalEqStr (jsGet o ("id".toList)) ctx.self.user_id = false) :
    eventHandler ctx msg =
      dispatchSwitch
        { msg with event := preprocessEvent ctx.self.user_id ctx.self.user ctx.al msg.event }
        (mutateFrom o msg.event.channel)
        (objAssign (resolveUser ctx (userOfMsg msg)).brain (userOfMsg msg)
          (mutateFrom o msg.event.channel))
        (resolveUser ctx (userOfMsg msg)).webCalls
        (eventText (preprocessEvent ctx.self.user_id ctx.self.user ctx.al msg.event)) := by
  unfold eventHandler
  rw [hfound, if_pos hu]
  dsimp only
  rw [if_neg (by rw [hnotself]; exact Bool.false_ne_true)]

/-- C6: an inbound event whose resolved acting user's ID equals the
bot's own `self.user_id` makes `eventHandler` return before
classification — nothing is handed to the receive pipeline and the
dispatch switch (with its preceding text preprocessing) is never
reached. -/
theorem eventHandler_drops_self (ctx : HandlerCtx) (msg : SocketMessage)
    (hself : jvalEqStr (fromIdOf ctx msg) ctx.self.user_id = true) :
    ((eventHandler ctx msg).received = []) ∧
    ((eventHandler ctx msg).dispatchText = none) := by
  by_cases hu : jsTruthyOpt msg.event.user = true
  · cases hfound : (resolveUser ctx (userOfMsg msg)).found with
    | none =>
      have he : eventHandler ctx msg =
          { received := [], brain := (resolveUser ctx (userOfMsg msg)).brain,
            dispatchText := none,
            usersInfoCalls := (resolveUser ctx (userOfMsg msg)).webCalls,
            errorLogged := true } := by
        unfold eventHandler
        rw [hfound, if_pos hu]
      rw [he]
      exact ⟨rfl, rfl⟩
    | some o =>
      have hself2 : jvalEqStr (jsGet o ("id".toList)) ctx.self.user_id = true := by
        unfold fromIdOf at hself
        rw [hfound] at hself
        exact hself
      have he : eventHandler ctx msg =
          { received := [], brain := (resolveUser ctx (userOfMsg msg)).brain,
            dispatchText := none,
            usersInfoCalls := (resolveUser ctx (userOfMsg msg)).webCalls,
            errorLogged := false } := by
        unfold eventHandler
        rw [hfound, if_pos hu]
        dsimp only
        rw [if_pos hself2]
      rw [he]
      exact ⟨rfl, rfl⟩
  · have he : eventHandler ctx msg =
        { received := [], brain := ctx.brain, dispatchText := none,
          usersInfoCalls := 0, errorLogged := false } := by
      unfold eventHandler
      rw [if_neg hu]
    rw [he]
    exact ⟨rfl, rfl⟩

theorem eventHandler_drops_self_witness :
    ((eventHandler
        { self := { user_id := "B1".toList, user := "bot".toList },
          al := none,
          brain := [(("U9".toList), [(("id".toList), JVal.vstr ("B1".toList))])],
          usersInfo := fun _ => none }
        { event := { etype := "message".toList, user := some ("U9".toList),
                     channel := some ("C7".toList), channel_type := none,
                     text := some ("ping".toList), message_text := none, ts := none,
                     event_ts := none, item := none, item_user := none, reaction := none,
                     file_id := none },
          ts := none }).received = []) ∧
    ((eventHandler
        { self := { user_id := "B1".toList, user := "bot".toList },
          al := none,
          brain := [(("U9".toList), [(("id".toList), JVal.vstr ("B1".toList))])],
          usersInfo := fun _ => none }
        { event := { etype := "message".toList, user := some ("U9".toList),
                     channel := some ("C7".toList), channel_type := none,
                     text := some ("ping".toList), message_text := none, ts := none,
                     event_ts := none, item := none, item_user := none, reaction := none,
                     file_id := none },
          ts := none }).dispatchText = none) :=
  eventHandler_drops_self _ _ (by decide)

/-- C7: once the handler reaches the dispatch switch, a
`member_left_channel` event yields exactly one Leave message whose `ts`
is the OUTER envelope timestamp (`message.ts`), while a
`member_joined_channel` event yields exactly one Enter message whose
`ts` is the inner event timestamp (`message.event.ts`) — the asymmetry
of Bot.mjs lines 497 and 503. -/
theorem member_event_timestamps (ctx : HandlerCtx) (msg : SocketMessage) (o : JObj)
    (hu : jsTruthyOpt msg.event.user = true)
    (hfound : (resolveUser ctx (userOfMsg msg)).found = some o)
    (hnotself : jvalEqStr (jsGet o ("id".toList)) ctx.self.user_id = false) :
    (msg.event.etype = "member_left_channel".toList →
      (eventHandler ctx msg).received = [.leave (userOfMsg msg) msg.ts]) ∧
    (msg.event.etype = "member_joined_channel".toList →
      (eventHandler ctx msg).received =
        [.enter (mutateFrom o msg.event.channel) msg.event.ts]) := by
  rw [eventHandler_reaches_dispatch ctx msg o hu hfound hnotself]
  constructor
  · intro h
    unfold dispatchSwitch
    rw [if_neg (show ¬ (({ msg with
          event := preprocessEvent ctx.self.user_id ctx.self.user ctx.al msg.event } :
          SocketMessage).event.etype = "member_joined_channel".toList) by
        show ¬ (msg.event.etype = "member_joined_channel".toList)
        rw [h]
        decide),
      if_pos (show ({ msg with
          event := preprocessEvent ctx.self.user_id ctx.self.user ctx.al msg.event } :
          SocketMessage).event.etype = "member_left_channel".toList from h)]
    rfl
  · intro h
    unfold dispatchSwitch
    rw [if_pos (show ({ msg with
        event := preprocessEvent ctx.self.user_id ctx.self.user ctx.al msg.event } :
        SocketMessage).event.etype = "member_joined_channel".toList from h)]
    rfl

theorem member_event_timestamps_witness :
    (eventHandler
        { self := { user_id := "B2".toList, user := "hubot".toList },
          al := none,
          brain := [(("U3".toList), [(("id".toList), JVal.vstr ("U3".toList))])],
          usersInfo := fun _ => none }
        { event := { etype := "member_left_channel".toList, user := some ("U3".toList),
                     channel := some ("C9".toList), channel_type := none,
                     text := none, message_text := none, ts := some ("111.222".toList),
                     event_ts := none, item := none, item_user := none, reaction := none,
                     file_id := none },
          ts := some ("333.444".toList) }).received =
      [.leave ("U3".toList) (some ("333.444".toList))] :=
  (member_event_timestamps
    { self := { user_id := "B2".toList, user := "hubot".toList },
      al := none,
      brain := [(("U3".toList), [(("id".toList), JVal.vstr ("U3".toList))])],
      usersInfo := fun _ => none }
    { event := { etype := "member_left_channel".toList, user := some ("U3".toList),
                 channel := some ("C9".toList), channel_type := none,
                 text := none, message_text := none, ts := some ("111.222".toList),
                 event_ts := none, item := none, item_user := none, reaction := none,
                 file_id := none },
      ts := some ("333.444".toList) }
    [(("id".toList), JVal.vstr ("U3".toList))]
    (by decide) rfl (by decide)).1 rfl

/-- C3 counterexample: the claim says the two preprocessing steps in
order leave `"<@BOTID> hello"` as the text seen by the dispatch switch.
They do not: step 1 (`addBotIdToMessage`) writes `"<@BOTID> hello"` back
into the event, but step 2 (`replaceBotIdWithName`) then reads that very
text, finds the mention it just added, and replaces it with the alias or
`@name` form.  For a DM event with text "hello", bot ID "BOTID", bot
name "bot" and no alias, the dispatch switch sees `"@bot hello"`, not
`"<@BOTID> hello"`. -/
theorem dm_preprocess_cex :
    ((eventHandler
        { self := { user_id := "BOTID".toList, user := "bot".toList },
          al := none,
          brain := [(("U1".toList), [(("id".toList), JVal.vstr ("U1".toList))])],
          usersInfo := fun _ => none }
        { event := { etype := "message".toList, user := some ("U1".toList),
                     channel := some ("D1".toList), channel_type := some ("im".toList),
                     text := some ("hello".toList), message_text := none, ts := none,
                     event_ts := none, item := none, item_user := none, reaction := none,
                     file_id := none },
          ts := none }).dispatchText = some ("@bot hello".toList)) ∧
    ¬ (some ("@bot hello".toList) = some ("<@BOTID> hello".toList)) := by
  constructor
  · rfl
  · decide

theorem preprocess_dm_text (selfId selfName : Str) (al : Option Str) (e : InboundEvent)
    (htext : e.text = some ("hello".toList))
    (hct : e.channel_type = some ("im".toList))
    (hni : jsIncludes selfId ("hello".toList) = false) :
    eventText (preprocessEvent selfId selfName al e) =
      (if jsTruthyOpt al then al.getD [] else '@' :: selfName) ++ (' ' :: "hello".toList) := by
  have h1 : eventText e = "hello".toList := by
    unfold eventText
    rw [htext]
  have hadd : addBotIdToMessage selfId e =
      ("<@".toList ++ selfId ++ ">".toList) ++ (' ' :: "hello".toList) := by
    unfold addBotIdToMessage
    rw [h1, hct]
    dsimp only
    rw [hni, if_pos (by decide)]
    simp only [List.append_assoc]
    rw [show ("> ".toList ++ "hello".toList : Str) = ">".toList ++ (' ' :: "hello".toList)
      from by decide]
  have hmain : eventText (preprocessEvent selfId selfName al e) =
      replaceBotIdWithName selfId selfName al
        { e with text := some (addBotIdToMessage selfId e) } := rfl
  rw [hmain]
  unfold replaceBotIdWithName
  rw [show eventText { e with text := some (addBotIdToMessage selfId e) } =
      addBotIdToMessage selfId e from rfl]
  rw [hadd]
  dsimp only
  rw [jsIncludes_append_self, if_pos rfl]
  by_cases hal : jsTruthyOpt al = true
  · rw [if_pos hal, if_pos hal, jsReplaceFirst_append_self]
  · rw [if_neg hal, if_neg hal, jsReplaceFirst_append_self]

/-- C3 (amended): for a direct-message event with text "hello" whose
text does not already contain the bot's user ID, the two preprocessing
steps applied in order yield — as the text seen by the dispatch switch —
the bot's alias followed by " hello" when a (truthy) alias is
configured, and "@NAME hello" otherwise: step 1 prefixes the mention
token `<@BOTID>` and step 2 immediately replaces that mention, so the
dispatch switch never sees `"<@BOTID> hello"`. -/
theorem dm_preprocess_amended (ctx : HandlerCtx) (msg : SocketMessage) (o : JObj)
    (hu : jsTruthyOpt msg.event.user = true)
    (hfound : (resolveUser ctx (userOfMsg msg)).found = some o)
    (hnotself : jvalEqStr (jsGet o ("id".toList)) ctx.self.user_id = false)
    (htext : msg.event.text = some ("hello".toList))
    (hct : msg.event.channel_type = some ("im".toList))
    (hni : jsIncludes ctx.self.user_id ("hello".toList) = false) :
    (eventHandler ctx msg).dispatchText =
      some ((if jsTruthyOpt ctx.al then ctx.al.getD [] else '@' :: ctx.self.user) ++
        (' ' :: "hello".toList)) := by
  rw [eventHandler_reaches_dispatch ctx msg o hu hfound hnotself, dispatchSwitch_text,
    preprocess_dm_text ctx.self.user_id ctx.self.user ctx.al msg.event htext hct hni]

theorem dm_preprocess_amended_witness :
    (eventHandler
        { self := { user_id := "B9".toList, user := "hubot".toList },
          al := none,
          brain := [(("U4".toList), [(("id".toList), JVal.vstr ("U4".toList))])],
          usersInfo := fun _ => none }
        { event := { etype := "message".toList, user := some ("U4".toList),
                     channel := some ("D4".toList), channel_type := some ("im".toList),
                     text := some ("hello".toList), message_text := none, ts := none,
                     event_ts := none, item := none, item_user := none, reaction := none,
                     file_id := none },
          ts := none }).dispatchText =
      some ((if jsTruthyOpt none then (none : Option Str).getD [] else '@' :: "hubot".toList) ++
        (' ' :: "hello".toList)) :=
  dm_preprocess_amended
    { self := { user_id := "B9".toList, user := "hubot".toList },
      al := none,
      brain := [(("U4".toList), [(("id".toList), JVal.vstr ("U4".toList))])],
      usersInfo := fun _ => none }
    { event := { etype := "message".toList, user := some ("U4".toList),
                 channel := some ("D4".toList), channel_type := some ("im".toList),
                 text := some ("hello".toList), message_text := none, ts := none,
                 event_ts := none, item := none, item_user := none, reaction := none,
                 file_id := none },
      ts := none }
    [(("id".toList), JVal.vstr ("U4".toList))]
    (by decide) rfl (by decide) rfl rfl (by decide)

end HubotSlack
